import Mathlib

/-!
Verification of the siuu-bank account store (Go + PostgreSQL).

The account table and its operations are shallowly embedded: the table is a
`List Account` (one element per row), SQL queries become list operations, and
the transfer transaction becomes a pure function that returns the committed
state together with the sequence of statements it issued.  Balances and
account numbers are Go `int64` values stored in a PostgreSQL `BIGINT` column;
the store is the external collaborator and performs exact integer arithmetic,
so they are modelled as unbounded `Int`.
-/

/-- The `Account` record of `account.go` (`CreatedAt` as an abstract tick). -/
structure Account where
  id : Nat
  firstName : String
  lastName : String
  number : Int
  encryptedPassword : String
  balance : Int
  createdAt : Nat
deriving DecidableEq, Repr

/-- The `AccountView` record of `account.go`: no `EncryptedPassword` field. -/
structure AccountView where
  id : Nat
  firstName : String
  lastName : String
  number : Int
  balance : Int
  createdAt : Nat
deriving DecidableEq, Repr

/-- `(*Account).View` from `account.go`: field-for-field projection. -/
def Account.View (a : Account) : AccountView :=
  { id := a.id
    firstName := a.firstName
    lastName := a.lastName
    number := a.number
    balance := a.balance
    createdAt := a.createdAt }

/-- The account table: one `Account` per row. -/
abbrev Store := List Account

/-- Well-formedness guaranteed by the schema of `createAccountTable`:
`id SERIAL PRIMARY KEY` and `number BIGINT UNIQUE` make ids and numbers
unique across rows. -/
def WF (st : Store) : Prop :=
  (st.map Account.id).Nodup ∧ (st.map Account.number).Nodup

instance (st : Store) : Decidable (WF st) := by
  unfold WF
  infer_instance

/-- `SELECT ... WHERE number = $1` via `QueryRow`: the first matching row. -/
def findByNumber (st : Store) (n : Int) : Option Account :=
  st.find? (fun a => a.number = n)

/-- The domain errors `Transfer` can signal (`account_store.go`). -/
inductive TransferError where
  | invalidAmount
  | accountNotFound
  | insufficientFunds
deriving DecidableEq, Repr

/-- One statement issued to the database inside `Transfer`. -/
inductive DBEvent where
  | txBegin
  | lockRequest (number : Int)
  | balanceUpdate (id : Nat) (delta : Int)
  | txCommit
  | txRollback
deriving DecidableEq, Repr

/-- The `accRow` struct local to `Transfer`. -/
structure accRow where
  id : Nat
  balance : Int
deriving DecidableEq, Repr

/-- The `getLocked` closure of `Transfer`:
`SELECT id, balance FROM account WHERE number = $1 FOR UPDATE`. -/
def getLocked (st : Store) (number : Int) : Option accRow :=
  (findByNumber st number).map (fun a => ⟨a.id, a.balance⟩)

/-- Row effect of `UPDATE account SET balance = balance - $1 WHERE id = $2`. -/
def debitFn (i : Nat) (amount : Int) (a : Account) : Account :=
  if a.id = i then { a with balance := a.balance - amount } else a

/-- Row effect of `UPDATE account SET balance = balance + $1 WHERE id = $2`. -/
def creditFn (i : Nat) (amount : Int) (a : Account) : Account :=
  if a.id = i then { a with balance := a.balance + amount } else a

/-- `UPDATE account SET balance = balance - $1 WHERE id = $2`. -/
def debitById (st : Store) (i : Nat) (amount : Int) : Store :=
  st.map (debitFn i amount)

/-- `UPDATE account SET balance = balance + $1 WHERE id = $2`. -/
def creditById (st : Store) (i : Nat) (amount : Int) : Store :=
  st.map (creditFn i amount)

/-- Outcome of one call to `Transfer`: the returned error (if any), the
committed state visible after the call (rollback restores the input state),
and the ordered list of statements issued inside the transaction. -/
structure TransferResult where
  err : Option TransferError
  state : Store
  events : List DBEvent
deriving DecidableEq, Repr

/-- `(*PostgresStore).Transfer` from `account_store.go`, line for line:
amount guard, lock-order swap, two `FOR UPDATE` reads, from/to re-derivation,
balance check, debit, credit, commit. -/
def Transfer (st : Store) (fromNumber toNumber amount : Int) : TransferResult :=
  if amount ≤ 0 then
    ⟨some .invalidAmount, st, []⟩
  else
    let first := if fromNumber > toNumber then toNumber else fromNumber
    let second := if fromNumber > toNumber then fromNumber else toNumber
    match getLocked st first with
    | none => ⟨some .accountNotFound, st, [.txBegin, .lockRequest first, .txRollback]⟩
    | some firstAcc =>
      match getLocked st second with
      | none => ⟨some .accountNotFound, st,
          [.txBegin, .lockRequest first, .lockRequest second, .txRollback]⟩
      | some secondAcc =>
        let fromAcc := if first = fromNumber then firstAcc else secondAcc
        let toAcc := if first = fromNumber then secondAcc else firstAcc
        if fromAcc.balance < amount then
          ⟨some .insufficientFunds, st,
            [.txBegin, .lockRequest first, .lockRequest second, .txRollback]⟩
        else
          ⟨none, creditById (debitById st fromAcc.id amount) toAcc.id amount,
            [.txBegin, .lockRequest first, .lockRequest second,
             .balanceUpdate fromAcc.id (-amount), .balanceUpdate toAcc.id amount,
             .txCommit]⟩

/-- The account numbers of the lock requests of a trace, in order. -/
def lockNumbers (evs : List DBEvent) : List Int :=
  evs.filterMap (fun e =>
    match e with
    | .lockRequest n => some n
    | _ => none)

/-- `(*PostgresStore).UpdateAccount`: rewrites first/last name, password hash
and balance of every row whose id matches; `number` and `created_at` are not
in the SET list. -/
def UpdateAccount (st : Store) (acc : Account) : Store :=
  st.map (fun a =>
    if a.id = acc.id then
      { a with
        firstName := acc.firstName
        lastName := acc.lastName
        encryptedPassword := acc.encryptedPassword
        balance := acc.balance }
    else a)

/-- `(*PostgresStore).DeleteAccount`: `DELETE FROM account WHERE id = $1`;
the driver reports no error when zero rows match. -/
def DeleteAccount (st : Store) (i : Nat) : Except String Store :=
  .ok (st.filter (fun a => a.id ≠ i))

/-- `(*PostgresStore).CreateAccount`: `INSERT ... RETURNING id`; the store
assigns the id and rejects a duplicate account number (UNIQUE constraint). -/
def CreateAccount (st : Store) (acc : Account) (newId : Nat) : Option Store :=
  if st.any (fun a => a.number = acc.number) then none
  else some (st ++ [{ acc with id := newId }])

/-- `generateAccountNumber` from `account.go`: `rand.Int63n(1_000_000_000_000)`,
with the random source passed in as an oracle. -/
def generateAccountNumber (randInt63n : Int → Int) : Int :=
  randInt63n 1000000000000

/-- The contract of `rand.Int63n`: for positive `n` the result lies in
`[0, n)`. -/
def Int63nContract (f : Int → Int) : Prop :=
  ∀ n : Int, 0 < n → 0 ≤ f n ∧ f n < n

/-- `NewAccount` from `account.go`, with bcrypt as a fallible oracle and the
clock as an argument: hashes the password, draws the number, zero balance. -/
def NewAccount (bcryptGen : String → Option String) (randInt63n : Int → Int)
    (firstName lastName password : String) (now : Nat) : Option Account :=
  match bcryptGen password with
  | none => none
  | some encpw =>
      some
        { id := 0
          firstName := firstName
          lastName := lastName
          number := generateAccountNumber randInt63n
          encryptedPassword := encpw
          balance := 0
          createdAt := now }

/-- Sample rows for concrete instantiations. -/
def accA : Account := ⟨1, "ann", "lee", 5, "hA", 100, 0⟩

def accB : Account := ⟨2, "bob", "kim", 9, "hB", 50, 1⟩

def accC : Account := ⟨3, "cef", "rao", 11, "hC", 70, 2⟩

/-- A small well-formed table. -/
def bankA : Store := [accA, accB, accC]

/-- The account produced by `NewAccount` under the constant-zero draw and a
fixed hash oracle. -/
def accGen : Account :=
  { id := 0
    firstName := "abhi"
    lastName := "anand"
    number := 0
    encryptedPassword := "hash"
    balance := 0
    createdAt := 0 }

/-! ### Helper lemmas -/

theorem mem_id_inj {st : Store} (hWF : WF st) {a b : Account}
    (ha : a ∈ st) (hb : b ∈ st) (h : a.id = b.id) : a = b :=
  List.inj_on_of_nodup_map hWF.1 ha hb h

theorem mem_number_inj {st : Store} (hWF : WF st) {a b : Account}
    (ha : a ∈ st) (hb : b ∈ st) (h : a.number = b.number) : a = b :=
  List.inj_on_of_nodup_map hWF.2 ha hb h

theorem findByNumber_mem {st : Store} {n : Int} {a : Account}
    (h : findByNumber st n = some a) : a ∈ st ∧ a.number = n := by
  simp only [findByNumber] at h
  refine ⟨List.mem_of_find?_eq_some h, ?_⟩
  have hp := List.find?_some h
  simpa using hp

theorem findByNumber_self {st : Store} (hWF : WF st) {a : Account} (ha : a ∈ st) :
    findByNumber st a.number = some a := by
  cases hfind : findByNumber st a.number with
  | none =>
      exfalso
      simp only [findByNumber, List.find?_eq_none] at hfind
      exact by simpa using hfind a ha
  | some x =>
      obtain ⟨hxm, hxn⟩ := findByNumber_mem hfind
      rw [mem_number_inj hWF hxm ha hxn]

theorem getLocked_self {st : Store} (hWF : WF st) {a : Account} (ha : a ∈ st) :
    getLocked st a.number = some ⟨a.id, a.balance⟩ := by
  rw [getLocked, findByNumber_self hWF ha, Option.map_some']

theorem findByNumber_map {st : Store} {n : Int} (g : Account → Account)
    (hg : ∀ x, (g x).number = x.number) :
    findByNumber (st.map g) n = (findByNumber st n).map g := by
  simp only [findByNumber, List.find?_map]
  have hpred : ((fun a : Account => decide (a.number = n)) ∘ g)
      = (fun a : Account => decide (a.number = n)) := by
    funext x
    simp [hg x]
  rw [hpred]

/-- Resolution of `Transfer` when both numbers name rows of a well-formed
table: the locks go out in `min`/`max` order and the from/to roles are
re-derived from the original direction. -/
theorem Transfer_resolve (st : Store) (p q : Account) (m : Int) (hWF : WF st)
    (hp : p ∈ st) (hq : q ∈ st) (hm : 0 < m) :
    Transfer st p.number q.number m =
      if p.balance < m then
        ⟨some .insufficientFunds, st,
          [.txBegin, .lockRequest (min p.number q.number),
           .lockRequest (max p.number q.number), .txRollback]⟩
      else
        ⟨none, creditById (debitById st p.id m) q.id m,
          [.txBegin, .lockRequest (min p.number q.number),
           .lockRequest (max p.number q.number),
           .balanceUpdate p.id (-m), .balanceUpdate q.id m, .txCommit]⟩ := by
  by_cases hgt : q.number < p.number
  · rw [min_eq_right (le_of_lt hgt), max_eq_left (le_of_lt hgt)]
    simp only [Transfer, if_neg (not_le.mpr hm), gt_iff_lt, if_pos hgt,
      getLocked_self hWF hp, getLocked_self hWF hq, if_neg (ne_of_lt hgt)]
  · have hle : p.number ≤ q.number := not_lt.mp hgt
    rw [min_eq_left hle, max_eq_right hle]
    simp only [Transfer, if_neg (not_le.mpr hm), gt_iff_lt, if_neg hgt,
      getLocked_self hWF hp, getLocked_self hWF hq, if_pos rfl, if_true]

theorem getLocked_mem {st : Store} {n : Int} {r : accRow}
    (h : getLocked st n = some r) :
    ∃ a : Account, a ∈ st ∧ a.number = n ∧ r = ⟨a.id, a.balance⟩ := by
  rw [getLocked] at h
  cases hf : findByNumber st n with
  | none => rw [hf] at h; simp at h
  | some a =>
      rw [hf, Option.map_some', Option.some_inj] at h
      obtain ⟨ha, hn⟩ := findByNumber_mem hf
      exact ⟨a, ha, hn, h.symm⟩

/-- Every call to `Transfer` either leaves the table untouched (rollback or
no-op) or applies the debit/credit pair to the ids of two rows whose numbers
are among the two argument numbers, with the debited row holding at least the
(positive) amount. -/
theorem Transfer_state_cases (st : Store) (f t m : Int) :
    (Transfer st f t m).state = st ∨
      ∃ p q : Account, p ∈ st ∧ q ∈ st ∧
        (p.number = f ∨ p.number = t) ∧ (q.number = f ∨ q.number = t) ∧
        0 < m ∧ m ≤ p.balance ∧
        (Transfer st f t m).state = creditById (debitById st p.id m) q.id m := by
  by_cases hm : m ≤ 0
  · left
    simp [Transfer, if_pos hm]
  have hm' : 0 < m := not_le.mp hm
  by_cases hft : t < f
  · cases hG1 : getLocked st t with
    | none =>
        left
        simp [Transfer, if_neg hm, gt_iff_lt, if_pos hft, hG1]
    | some r1 =>
        cases hG2 : getLocked st f with
        | none =>
            left
            simp [Transfer, if_neg hm, gt_iff_lt, if_pos hft, hG1, hG2]
        | some r2 =>
            obtain ⟨a1, ha1, hn1, hr1⟩ := getLocked_mem hG1
            obtain ⟨a2, ha2, hn2, hr2⟩ := getLocked_mem hG2
            by_cases hbal : r2.balance < m
            · left
              simp [Transfer, if_neg hm, gt_iff_lt, if_pos hft, hG1, hG2,
                if_neg (ne_of_lt hft), if_pos hbal]
            · right
              have hle : m ≤ a2.balance := by
                have h := not_lt.mp hbal
                rw [hr2] at h
                exact h
              refine ⟨a2, a1, ha2, ha1, Or.inl hn2, Or.inr hn1, hm', hle, ?_⟩
              simp [Transfer, if_neg hm, gt_iff_lt, if_pos hft, hG1, hG2,
                if_neg (ne_of_lt hft), if_neg hbal, if_neg (not_lt.mpr hle), hr1, hr2]
  · cases hG1 : getLocked st f with
    | none =>
        left
        simp [Transfer, if_neg hm, gt_iff_lt, if_neg hft, hG1]
    | some r1 =>
        cases hG2 : getLocked st t with
        | none =>
            left
            simp [Transfer, if_neg hm, gt_iff_lt, if_neg hft, hG1, hG2]
        | some r2 =>
            obtain ⟨a1, ha1, hn1, hr1⟩ := getLocked_mem hG1
            obtain ⟨a2, ha2, hn2, hr2⟩ := getLocked_mem hG2
            by_cases hbal : r1.balance < m
            · left
              simp [Transfer, if_neg hm, gt_iff_lt, if_neg hft, hG1, hG2,
                if_pos rfl, if_true, if_pos hbal]
            · right
              have hle : m ≤ a1.balance := by
                have h := not_lt.mp hbal
                rw [hr1] at h
                exact h
              refine ⟨a1, a2, ha1, ha2, Or.inl hn1, Or.inr hn2, hm', hle, ?_⟩
              simp [Transfer, if_neg hm, gt_iff_lt, if_neg hft, hG1, hG2,
                if_pos rfl, if_true, if_neg hbal, if_neg (not_lt.mpr hle), hr1, hr2]

theorem debitFn_number (i : Nat) (m : Int) (w : Account) :
    (debitFn i m w).number = w.number := by
  rw [debitFn]
  by_cases h : w.id = i
  · rw [if_pos h]
  · rw [if_neg h]

theorem creditFn_number (i : Nat) (m : Int) (w : Account) :
    (creditFn i m w).number = w.number := by
  rw [creditFn]
  by_cases h : w.id = i
  · rw [if_pos h]
  · rw [if_neg h]

theorem comp_update_id (i j : Nat) (m : Int) (w : Account) :
    (creditFn j m (debitFn i m w)).id = w.id := by
  rw [debitFn]
  by_cases h1 : w.id = i
  · rw [if_pos h1, creditFn]
    dsimp only
    by_cases h2 : w.id = j
    · rw [if_pos h2]
    · rw [if_neg h2]
  · rw [if_neg h1, creditFn]
    by_cases h2 : w.id = j
    · rw [if_pos h2]
    · rw [if_neg h2]

theorem comp_update_of_ne (i j : Nat) (m : Int) (w : Account)
    (h1 : w.id ≠ i) (h2 : w.id ≠ j) :
    creditFn j m (debitFn i m w) = w := by
  rw [debitFn, if_neg h1, creditFn, if_neg h2]

theorem comp_update_balance (i j : Nat) (m : Int) (w : Account) :
    (creditFn j m (debitFn i m w)).balance =
      (if w.id = i then w.balance - m else w.balance) +
        (if w.id = j then m else 0) := by
  rw [debitFn]
  by_cases h1 : w.id = i
  · rw [if_pos h1, if_pos h1, creditFn]
    dsimp only
    by_cases h2 : w.id = j
    · rw [if_pos h2, if_pos h2]
    · rw [if_neg h2, if_neg h2]
      ring
  · rw [if_neg h1, if_neg h1, creditFn]
    by_cases h2 : w.id = j
    · rw [if_pos h2, if_pos h2]
    · rw [if_neg h2, if_neg h2]
      ring

theorem findByNumber_debit (st : Store) (i : Nat) (m n : Int) :
    findByNumber (debitById st i m) n =
      (findByNumber st n).map (debitFn i m) := by
  rw [debitById]
  exact findByNumber_map _ (debitFn_number i m)

theorem findByNumber_credit (st : Store) (i : Nat) (m n : Int) :
    findByNumber (creditById st i m) n =
      (findByNumber st n).map (creditFn i m) := by
  rw [creditById]
  exact findByNumber_map _ (creditFn_number i m)

/-! ### Claims -/

/-- C1: for distinct account numbers and a positive amount, the two
`FOR UPDATE` reads of `Transfer` are issued smaller number first, larger
second, so both directions of the same pair request locks in the same
order. -/
theorem transfer_lock_order (st : Store) (f t m : Int) (hWF : WF st)
    (hf : (findByNumber st f).isSome) (ht : (findByNumber st t).isSome)
    (hne : f ≠ t) (hm : 0 < m) :
    lockNumbers (Transfer st f t m).events = [min f t, max f t] ∧
    lockNumbers (Transfer st t f m).events = [min f t, max f t] := by
  obtain ⟨p, hp⟩ := Option.isSome_iff_exists.mp hf
  obtain ⟨q, hq⟩ := Option.isSome_iff_exists.mp ht
  obtain ⟨hpm, hpn⟩ := findByNumber_mem hp
  obtain ⟨hqm, hqn⟩ := findByNumber_mem hq
  subst hpn
  subst hqn
  constructor
  · rw [Transfer_resolve st p q m hWF hpm hqm hm]
    by_cases hbal : p.balance < m
    · rw [if_pos hbal]
      simp [lockNumbers]
    · rw [if_neg hbal]
      simp [lockNumbers]
  · rw [Transfer_resolve st q p m hWF hqm hpm hm,
      min_comm q.number p.number, max_comm q.number p.number]
    by_cases hbal : q.balance < m
    · rw [if_pos hbal]
      simp [lockNumbers]
    · rw [if_neg hbal]
      simp [lockNumbers]

/-- C2: a transfer of `0 < m ≤ balance of p` between distinct existing
accounts commits, debits `p` by `m`, credits `q` by `m`, and conserves the
sum of the two balances. -/
theorem transfer_success_balances (st : Store) (p q : Account) (m : Int)
    (hWF : WF st) (hp : p ∈ st) (hq : q ∈ st) (hne : p.number ≠ q.number)
    (hm : 0 < m) (hba : m ≤ p.balance) :
    (Transfer st p.number q.number m).err = none ∧
    (findByNumber (Transfer st p.number q.number m).state p.number).map Account.balance
      = some (p.balance - m) ∧
    (findByNumber (Transfer st p.number q.number m).state q.number).map Account.balance
      = some (q.balance + m) ∧
    (p.balance - m) + (q.balance + m) = p.balance + q.balance := by
  have hpq : p.id ≠ q.id := by
    intro h
    exact hne (congrArg Account.number (mem_id_inj hWF hp hq h))
  rw [Transfer_resolve st p q m hWF hp hq hm, if_neg (not_lt.mpr hba)]
  refine ⟨rfl, ?_, ?_, by ring⟩
  · rw [findByNumber_credit, findByNumber_debit, findByNumber_self hWF hp]
    simp only [Option.map_some']
    rw [comp_update_balance, if_pos rfl, if_neg hpq, add_zero]
  · rw [findByNumber_credit, findByNumber_debit, findByNumber_self hWF hq]
    simp only [Option.map_some']
    rw [comp_update_balance, if_neg (Ne.symm hpq), if_pos rfl]

/-- C3: a transfer of an amount strictly above the from-balance fails with
`insufficientFunds`, leaves the table untouched, and its trace shows both
row locks requested before the abort. -/
theorem transfer_insufficient_funds (st : Store) (p q : Account) (m : Int)
    (hWF : WF st) (hp : p ∈ st) (hq : q ∈ st) (hm : 0 < m)
    (hgt : p.balance < m) :
    Transfer st p.number q.number m =
      ⟨some .insufficientFunds, st,
        [.txBegin, .lockRequest (min p.number q.number),
         .lockRequest (max p.number q.number), .txRollback]⟩ := by
  rw [Transfer_resolve st p q m hWF hp hq hm, if_pos hgt]

/-- C5: a non-positive amount is rejected with `invalidAmount` before the
transaction is opened: the state is returned unchanged and no statement is
issued. -/
theorem transfer_invalid_amount (st : Store) (f t m : Int) (hm : m ≤ 0) :
    Transfer st f t m = ⟨some .invalidAmount, st, []⟩ := by
  rw [Transfer, if_pos hm]

/-- C6: a self-transfer of `0 < m ≤ balance` is not rejected: it commits and
the account's balance is unchanged (debit and credit of the same row
cancel). -/
theorem self_transfer_noop (st : Store) (p : Account) (m : Int)
    (hWF : WF st) (hp : p ∈ st) (hm : 0 < m) (hba : m ≤ p.balance) :
    (Transfer st p.number p.number m).err = none ∧
    (findByNumber (Transfer st p.number p.number m).state p.number).map Account.balance
      = some p.balance := by
  rw [Transfer_resolve st p p m hWF hp hp hm, if_neg (not_lt.mpr hba)]
  refine ⟨rfl, ?_⟩
  rw [findByNumber_credit, findByNumber_debit, findByNumber_self hWF hp]
  simp only [Option.map_some']
  rw [comp_update_balance, if_pos rfl, if_pos rfl]
  congr 1
  ring

theorem transfer_preserves_nonneg (st : Store) (f t m : Int) (hWF : WF st)
    (hpos : ∀ x ∈ st, 0 ≤ x.balance) :
    ∀ x ∈ (Transfer st f t m).state, 0 ≤ x.balance := by
  rcases Transfer_state_cases st f t m with hcase |
    ⟨p, q, hpmem, hqmem, hpn, hqn, hm, hble, hcase⟩
  · rw [hcase]
    exact hpos
  · rw [hcase]
    intro x hx
    simp only [creditById, debitById, List.map_map, List.mem_map,
      Function.comp] at hx
    obtain ⟨z, hz, hxz⟩ := hx
    have hz0 := hpos z hz
    have hbal : x.balance =
        (if z.id = p.id then z.balance - m else z.balance) +
          (if z.id = q.id then m else 0) := by
      rw [← hxz]
      exact comp_update_balance p.id q.id m z
    rw [hbal]
    by_cases h1 : z.id = p.id
    · have hzp : z = p := mem_id_inj hWF hz hpmem h1
      have hmz : m ≤ z.balance := by
        rw [hzp]
        exact hble
      rw [if_pos h1]
      by_cases h2 : z.id = q.id
      · rw [if_pos h2]
        omega
      · rw [if_neg h2]
        omega
    · rw [if_neg h1]
      by_cases h2 : z.id = q.id
      · rw [if_pos h2]
        omega
      · rw [if_neg h2]
        omega

/-- C4 (amended): on a well-formed table with non-negative balances,
`Transfer` always leaves all balances non-negative; `UpdateAccount` and
`CreateAccount` do so provided the account record handed to them carries a
non-negative balance (they write the supplied balance unchecked). -/
theorem store_ops_preserve_nonneg :
    (∀ (st : Store) (f t m : Int), WF st → (∀ x ∈ st, 0 ≤ x.balance) →
      ∀ x ∈ (Transfer st f t m).state, 0 ≤ x.balance) ∧
    (∀ (st : Store) (acc : Account), (∀ x ∈ st, 0 ≤ x.balance) →
      0 ≤ acc.balance → ∀ x ∈ UpdateAccount st acc, 0 ≤ x.balance) ∧
    (∀ (st : Store) (acc : Account) (newId : Nat) (st2 : Store),
      (∀ x ∈ st, 0 ≤ x.balance) → 0 ≤ acc.balance →
      CreateAccount st acc newId = some st2 → ∀ x ∈ st2, 0 ≤ x.balance) := by
  refine ⟨transfer_preserves_nonneg, ?_, ?_⟩
  · intro st acc hpos hacc x hx
    rw [UpdateAccount] at hx
    obtain ⟨z, hz, hxz⟩ := List.mem_map.mp hx
    by_cases h : z.id = acc.id
    · rw [← hxz, if_pos h]
      exact hacc
    · rw [← hxz, if_neg h]
      exact hpos z hz
  · intro st acc newId st2 hpos hacc hcreate x hx
    rw [CreateAccount] at hcreate
    by_cases h : st.any (fun a => a.number = acc.number)
    · rw [if_pos h] at hcreate
      exact absurd hcreate (by simp)
    · rw [if_neg h, Option.some_inj] at hcreate
      rw [← hcreate] at hx
      rcases List.mem_append.mp hx with hx2 | hx2
      · exact hpos x hx2
      · rw [List.mem_singleton.mp hx2]
        exact hacc

/-- C4 counterexample: from a state whose only balance is `0` (all balances
non-negative), one `UpdateAccount` call whose argument carries balance `-1`
commits a negative balance, refuting the claim that every store operation
preserves non-negativity. -/
theorem update_negative_balance_cex :
    (∀ x ∈ ([⟨1, "a", "b", 5, "h", 0, 0⟩] : Store), 0 ≤ x.balance) ∧
    ∃ x ∈ UpdateAccount [⟨1, "a", "b", 5, "h", 0, 0⟩] ⟨1, "a", "b", 5, "h", -1, 0⟩,
      x.balance < 0 := by
  decide

/-- C9: the externally-visible projection is independent of the credential
hash: replacing `encryptedPassword` by any string leaves `View` unchanged
(and `AccountView` has no hash field to expose). -/
theorem view_independent_of_password (a : Account) (s : String) :
    Account.View { a with encryptedPassword := s } = Account.View a := by
  rfl

/-- C10: a transfer call, successful or not, leaves every account whose
number is neither the from- nor the to-number completely unchanged: the
old row is still present, and every post-state row with its id is that
exact row. -/
theorem transfer_frame (st : Store) (f t m : Int) (hWF : WF st)
    (acc : Account) (hacc : acc ∈ st) (hf : acc.number ≠ f)
    (ht : acc.number ≠ t) :
    acc ∈ (Transfer st f t m).state ∧
    ∀ b ∈ (Transfer st f t m).state, b.id = acc.id → b = acc := by
  rcases Transfer_state_cases st f t m with hcase |
    ⟨p, q, hpmem, hqmem, hpn, hqn, hm, hble, hcase⟩
  · rw [hcase]
    exact ⟨hacc, fun b hb hid => mem_id_inj hWF hb hacc hid⟩
  · have hap : acc.id ≠ p.id := by
      intro h
      have heq : acc = p := mem_id_inj hWF hacc hpmem h
      rcases hpn with h2 | h2
      · exact hf (heq ▸ h2)
      · exact ht (heq ▸ h2)
    have haq : acc.id ≠ q.id := by
      intro h
      have heq : acc = q := mem_id_inj hWF hacc hqmem h
      rcases hqn with h2 | h2
      · exact hf (heq ▸ h2)
      · exact ht (heq ▸ h2)
    rw [hcase]
    constructor
    · rw [creditById, debitById, List.map_map]
      refine List.mem_map.mpr ⟨acc, hacc, ?_⟩
      rw [Function.comp_apply]
      exact comp_update_of_ne p.id q.id m acc hap haq
    · intro b hb hid
      rw [creditById, debitById, List.map_map] at hb
      obtain ⟨z, hz, hbz⟩ := List.mem_map.mp hb
      have hzid : z.id = acc.id := by
        rw [← hbz, Function.comp_apply, comp_update_id] at hid
        exact hid
      have hzacc : z = acc := mem_id_inj hWF hz hacc hzid
      rw [← hbz, Function.comp_apply, hzacc]
      exact comp_update_of_ne p.id q.id m acc hap haq

/-- C7 (amended): under the `rand.Int63n` contract, every account number
produced at construction lies in `[0, 10^12)` — at most 12 digits, not the
13-digit range `[10^12, 10^13)`. -/
theorem account_number_range (bcryptGen : String → Option String)
    (randInt63n : Int → Int) (firstName lastName password : String)
    (now : Nat) (acc : Account) (hrand : Int63nContract randInt63n)
    (hacc : NewAccount bcryptGen randInt63n firstName lastName password now
      = some acc) :
    0 ≤ acc.number ∧ acc.number < 1000000000000 := by
  rw [NewAccount] at hacc
  cases hgen : bcryptGen password with
  | none =>
      rw [hgen] at hacc
      exact absurd hacc (by simp)
  | some encpw =>
      rw [hgen, Option.some_inj] at hacc
      have hn : acc.number = generateAccountNumber randInt63n := by
        rw [← hacc]
      rw [hn, generateAccountNumber]
      exact hrand 1000000000000 (by norm_num)

/-- C7 counterexample: the constant-zero draw is an admissible `rand.Int63n`
behaviour, the account it produces has number `0`, and `0` is not in the
claimed range `[10^12, 10^13)`. -/
theorem account_number_cex :
    Int63nContract (fun _ => 0) ∧
    (NewAccount (fun _ => some "hash") (fun _ => 0) "abhi" "anand" "siuu" 0).map
      Account.number = some 0 ∧
    ¬ ((1000000000000 : Int) ≤ 0) := by
  refine ⟨fun _ hn => ⟨le_refl 0, hn⟩, rfl, by norm_num⟩

/-- C8 (amended): deleting an id that matches no row reports success with the
table unchanged (zero rows removed); no `NotFound` error is raised. -/
theorem delete_missing_succeeds (st : Store) (i : Nat)
    (h : ∀ a ∈ st, a.id ≠ i) :
    DeleteAccount st i = .ok st := by
  rw [DeleteAccount]
  congr 1
  rw [List.filter_eq_self]
  intro a ha
  simpa using h a ha

/-- C8 counterexample: deleting id `7` from the empty table — an id that
corresponds to no stored account — reports success, not a `NotFound`
failure. -/
theorem delete_missing_cex : DeleteAccount ([] : Store) 7 = .ok ([] : Store) :=
  rfl

/-! ### Concrete witnesses -/

theorem transfer_lock_order_witness :
    WF bankA ∧ (findByNumber bankA 5).isSome ∧ (findByNumber bankA 9).isSome ∧
    (5 : Int) ≠ 9 ∧ (0 : Int) < 30 ∧
    (lockNumbers (Transfer bankA 5 9 30).events = [min 5 9, max 5 9] ∧
     lockNumbers (Transfer bankA 9 5 30).events = [min 5 9, max 5 9]) :=
  ⟨by decide, by decide, by decide, by decide, by decide,
   transfer_lock_order bankA 5 9 30 (by decide) (by decide) (by decide)
     (by decide) (by decide)⟩

theorem transfer_success_witness :
    WF bankA ∧ accA ∈ bankA ∧ accB ∈ bankA ∧ accA.number ≠ accB.number ∧
    (0 : Int) < 30 ∧ (30 : Int) ≤ accA.balance ∧
    ((Transfer bankA accA.number accB.number 30).err = none ∧
     (findByNumber (Transfer bankA accA.number accB.number 30).state
        accA.number).map Account.balance = some (accA.balance - 30) ∧
     (findByNumber (Transfer bankA accA.number accB.number 30).state
        accB.number).map Account.balance = some (accB.balance + 30) ∧
     (accA.balance - 30) + (accB.balance + 30) = accA.balance + accB.balance) :=
  ⟨by decide, by decide, by decide, by decide, by decide, by decide,
   transfer_success_balances bankA accA accB 30 (by decide) (by decide)
     (by decide) (by decide) (by decide) (by decide)⟩

theorem transfer_insufficient_witness :
    WF bankA ∧ accA ∈ bankA ∧ accB ∈ bankA ∧ (0 : Int) < 1000 ∧
    accA.balance < 1000 ∧
    Transfer bankA accA.number accB.number 1000 =
      ⟨some .insufficientFunds, bankA,
        [.txBegin, .lockRequest (min accA.number accB.number),
         .lockRequest (max accA.number accB.number), .txRollback]⟩ :=
  ⟨by decide, by decide, by decide, by decide, by decide,
   transfer_insufficient_funds bankA accA accB 1000 (by decide) (by decide)
     (by decide) (by decide) (by decide)⟩

theorem store_ops_nonneg_witness :
    WF bankA ∧ (∀ x ∈ bankA, 0 ≤ x.balance) ∧
    (∀ x ∈ (Transfer bankA 5 9 30).state, 0 ≤ x.balance) ∧
    (0 : Int) ≤ accC.balance ∧
    (∀ x ∈ UpdateAccount bankA accC, 0 ≤ x.balance) :=
  ⟨by decide, by decide,
   store_ops_preserve_nonneg.1 bankA 5 9 30 (by decide) (by decide),
   by decide,
   store_ops_preserve_nonneg.2.1 bankA accC (by decide) (by decide)⟩

theorem transfer_invalid_amount_witness :
    (0 : Int) ≤ 0 ∧ Transfer bankA 5 9 0 = ⟨some .invalidAmount, bankA, []⟩ :=
  ⟨le_refl 0, transfer_invalid_amount bankA 5 9 0 (le_refl 0)⟩

theorem self_transfer_witness :
    WF bankA ∧ accA ∈ bankA ∧ (0 : Int) < 30 ∧ (30 : Int) ≤ accA.balance ∧
    ((Transfer bankA accA.number accA.number 30).err = none ∧
     (findByNumber (Transfer bankA accA.number accA.number 30).state
        accA.number).map Account.balance = some accA.balance) :=
  ⟨by decide, by decide, by decide, by decide,
   self_transfer_noop bankA accA 30 (by decide) (by decide) (by decide)
     (by decide)⟩

theorem account_number_range_witness :
    Int63nContract (fun _ => 0) ∧
    NewAccount (fun _ => some "hash") (fun _ => 0) "abhi" "anand" "siuu" 0
      = some accGen ∧
    (0 ≤ accGen.number ∧ accGen.number < 1000000000000) :=
  ⟨fun _ hn => ⟨le_refl 0, hn⟩, rfl,
   account_number_range (fun _ => some "hash") (fun _ => 0) "abhi" "anand"
     "siuu" 0 accGen (fun _ hn => ⟨le_refl 0, hn⟩) rfl⟩

theorem delete_missing_witness :
    (∀ a ∈ bankA, a.id ≠ 7) ∧ DeleteAccount bankA 7 = .ok bankA :=
  ⟨by decide, delete_missing_succeeds bankA 7 (by decide)⟩

theorem transfer_frame_witness :
    WF bankA ∧ accC ∈ bankA ∧ accC.number ≠ 5 ∧ accC.number ≠ 9 ∧
    (accC ∈ (Transfer bankA 5 9 30).state ∧
     ∀ b ∈ (Transfer bankA 5 9 30).state, b.id = accC.id → b = accC) :=
  ⟨by decide, by decide, by decide, by decide,
   transfer_frame bankA 5 9 30 (by decide) accC (by decide) (by decide)
     (by decide)⟩
